import Mathlib

/-!
Verification development for the lasier circuit breaker
(src/lasier/circuit_breaker/asyncio.py).

The engine is shallowly embedded as a state-and-trace monad over an
association-list key-value store.  Every engine method from the source file
is translated one-to-one; the external key-value store, the catchable
exception filter and the notification hooks (which live outside the
embedded file) are modelled from the specification of their interfaces.

Python await points run cooperatively on a single thread; a sequence of
store operations, including those issued through asyncio.gather, is
modelled as one interleaving in issue order.  Besides the resulting store,
every computation records the list of store mutations, store reads and
hook invocations it issued, so that theorems can speak about which
operations a code path performs and in which order.
-/

set_option autoImplicit false

namespace Lasier

/-- Store keys.  A key is normally a Python string; the value none models
Python None being passed where a key is expected (the request cache key of
a rule is Optional). -/
abbrev Key := Option String

/-- Modelled from the spec: lasier.types.Timeout is an optional duration;
none means no expiry. -/
abbrev Timeout := Option Nat

/-- One store entry: an integer value together with its time-to-live. -/
structure Entry where
  value : Int
  ttl : Timeout
deriving DecidableEq, Repr

/-- The shared key-value store, as an association list with at most one
entry per key (all operations below preserve that). -/
abbrev Store := List (Key × Entry)

namespace Store

/-- Look up the entry stored under a key. -/
def lookup : Store → Key → Option Entry
  | [], _ => none
  | (k2, e) :: rest, k => if k2 = k then some e else lookup rest k

/-- Write an entry under a key: replace in place when the key is present,
append otherwise. -/
def setk : Store → Key → Entry → Store
  | [], k, e => [(k, e)]
  | (k2, e2) :: rest, k, e =>
      if k2 = k then (k, e) :: rest else (k2, e2) :: setk rest k e

/-- Remove every entry stored under a key. -/
def del : Store → Key → Store
  | [], _ => []
  | (k2, e) :: rest, k =>
      if k2 = k then del rest k else (k2, e) :: del rest k

end Store

/-- The operations a computation can issue against the store, plus the
hook invocations; recorded in issue order as a trace. -/
inductive Op where
  | get (k : Key)
  | set (k : Key) (v : Int) (t : Timeout)
  | delete (k : Key)
  | incr (k : Key)
  | expire (k : Key) (t : Timeout)
  | add (k : Key) (v : Int) (t : Timeout)
  | notifyOpenCircuit
  | notifyMaxFailuresExceeded
  | logIncreaseFailures (total_failures : Int) (total_requests : Int)
deriving DecidableEq, Repr

/-- A computation over the store: given the current store, it yields a
result, the next store, and the trace of operations it issued. -/
def M (α : Type) : Type := Store → α × Store × List Op

def M.pure {α : Type} (a : α) : M α := fun s => (a, s, [])

def M.bind {α β : Type} (x : M α) (f : α → M β) : M β := fun s =>
  let r := x s
  let r2 := f r.1 r.2.1
  (r2.1, r2.2.1, r.2.2 ++ r2.2.2)


/-- Modelled from the spec: the store contract (get never raises for a
missing key; the stored value is returned). -/
def Cache.get (k : Key) : M (Option Int) := fun s =>
  ((Store.lookup s k).map Entry.value, s, [Op.get k])

/-- Modelled from the spec: unconditional write with expiry. -/
def Cache.set (k : Key) (v : Int) (t : Timeout) : M Unit := fun s =>
  ((), Store.setk s k ⟨v, t⟩, [Op.set k v t])

/-- Modelled from the spec: removes a key, a no-op when absent. -/
def Cache.delete (k : Key) : M Unit := fun s =>
  ((), Store.del s k, [Op.delete k])

/-- Modelled from the spec: atomic integer increment; creates the key at 1
with no TTL when absent; returns the incremented value. -/
def Cache.incr (k : Key) : M Int := fun s =>
  match Store.lookup s k with
  | some e => (e.value + 1, Store.setk s k ⟨e.value + 1, e.ttl⟩, [Op.incr k])
  | none => (1, Store.setk s k ⟨1, none⟩, [Op.incr k])

/-- Modelled from the spec: sets the TTL on an existing key; a no-op when
the key is absent. -/
def Cache.expire (k : Key) (t : Timeout) : M Unit := fun s =>
  match Store.lookup s k with
  | some e => ((), Store.setk s k ⟨e.value, t⟩, [Op.expire k t])
  | none => ((), s, [Op.expire k t])

/-- Modelled from the spec: set-if-absent with expiry; a no-op when the
key already exists (its value and TTL are untouched). -/
def Cache.add (k : Key) (v : Int) (t : Timeout) : M Unit := fun s =>
  match Store.lookup s k with
  | some _ => ((), s, [Op.add k v t])
  | none => ((), Store.setk s k ⟨v, t⟩, [Op.add k v t])

/-- The policy object (Rule).  Its decision methods take no interesting
state, so the two enable switches are booleans and the open decision is a
function of the two totals.  The keys are those the engine reads. -/
structure Rule where
  failure_cache_key : String
  request_cache_key : Option String
  should_open_circuit : Int → Int → Bool
  should_increase_failure_count : Bool
  should_increase_request_count : Bool

/-- The circuit breaker engine configuration.  The error type of the
protected operation is abstract.  The fields failure_exception and
catchable are modelled from the spec: the breaker raises one configured
exception value, and classifies raised errors through a configurable
allow-list filter (the filter of the base class is not part of the
embedded file). -/
structure CircuitBreaker (ε : Type) where
  rule : Rule
  circuit_cache_key : String
  circuit_timeout : Timeout
  failure_timeout : Timeout
  failure_exception : ε
  catchable : ε → Bool

/-- Python truthiness of an optional integer read from the store. -/
def truthyInt : Option Int → Bool
  | some n => n ≠ 0
  | none => false

/-- Python truthiness of an optional string (None and the empty string
are falsy). -/
def keyTruthy : Option String → Bool
  | some s => s ≠ ""
  | none => false

/-- Modelled from the spec: the circuit-opened notification hook, a
fire-and-forget callback recorded in the trace. -/
def _notify_open_circuit : M Unit := fun s => ((), s, [Op.notifyOpenCircuit])

/-- Modelled from the spec: the threshold-exceeded notification hook. -/
def _notify_max_failures_exceeded : M Unit := fun s =>
  ((), s, [Op.notifyMaxFailuresExceeded])

/-- Modelled from the spec: the observability hook of the rule, recorded
in the trace with the totals it was given. -/
def log_increase_failures (total_failures total_requests : Int) : M Unit :=
  fun s => ((), s, [Op.logIncreaseFailures total_failures total_requests])

variable {ε : Type}

/-- Translation of is_circuit_open: the flag read, with a missing or
falsy value resolving to false. -/
def CircuitBreaker.is_circuit_open (cb : CircuitBreaker ε) : M Bool :=
  M.bind (Cache.get (some cb.circuit_cache_key)) (fun v =>
    M.pure (truthyInt v))

/-- Translation of get_total_failures: the failure counter, missing read
as 0. -/
def CircuitBreaker.get_total_failures (cb : CircuitBreaker ε) : M Int :=
  M.bind (Cache.get (some cb.rule.failure_cache_key)) (fun v =>
    M.pure (v.getD 0))

/-- Translation of get_total_requests: 0 without a store read when the
rule has no (truthy) request key, otherwise the request counter with a
missing key read as 0. -/
def CircuitBreaker.get_total_requests (cb : CircuitBreaker ε) : M Int :=
  if keyTruthy cb.rule.request_cache_key then
    M.bind (Cache.get cb.rule.request_cache_key) (fun v =>
      M.pure (v.getD 0))
  else
    M.pure 0

/-- Translation of open_circuit: set the flag with circuit_timeout, delete
the failure counter (and the request counter when the rule has a request
key, both deletions issued through gather), then fire the opened hook. -/
def CircuitBreaker.open_circuit (cb : CircuitBreaker ε) : M Unit :=
  M.bind (Cache.set (some cb.circuit_cache_key) 1 cb.circuit_timeout)
    (fun _ =>
      M.bind
        (match cb.rule.request_cache_key with
         | some rk =>
            M.bind (Cache.delete (some cb.rule.failure_cache_key)) (fun _ =>
              Cache.delete (some rk))
         | none =>
            Cache.delete (some cb.rule.failure_cache_key))
        (fun _ => _notify_open_circuit))

/-- Translation of _incr: atomic increment, then set the TTL exactly when
the returned value is 1; the incremented value is returned. -/
def CircuitBreaker._incr (_cb : CircuitBreaker ε) (key : Key)
    (timeout : Timeout) : M Int :=
  M.bind (Cache.incr key) (fun value =>
    M.bind (if value = 1 then Cache.expire key timeout else M.pure ())
      (fun _ => M.pure value))

/-- Translation of _increase_failure_count: return immediately when the
circuit is open or the rule disables failure counting; otherwise
increment the failure counter, read the request total (issued through
gather with the increment) and invoke the log hook with both totals. -/
def CircuitBreaker._increase_failure_count (cb : CircuitBreaker ε) :
    M Unit :=
  M.bind cb.is_circuit_open (fun opn =>
    if opn || !cb.rule.should_increase_failure_count then
      M.pure ()
    else
      M.bind (cb._incr (some cb.rule.failure_cache_key) cb.failure_timeout)
        (fun total_failures =>
          M.bind cb.get_total_requests (fun total_requests =>
            log_increase_failures total_failures total_requests)))

/-- Translation of _increase_request_count: return immediately when the
circuit is open or the rule disables request counting; otherwise
increment the request counter (the request key of the rule is passed as
given, even when it is None), and, when the rule also enables failure
counting, create the failure counter at 0 with failure_timeout through
set-if-absent. -/
def CircuitBreaker._increase_request_count (cb : CircuitBreaker ε) :
    M Unit :=
  M.bind cb.is_circuit_open (fun opn =>
    if opn || !cb.rule.should_increase_request_count then
      M.pure ()
    else
      M.bind (cb._incr cb.rule.request_cache_key cb.failure_timeout)
        (fun _ =>
          if cb.rule.should_increase_failure_count then
            Cache.add (some cb.rule.failure_cache_key) 0 cb.failure_timeout
          else
            M.pure ()))

/-- Translation of the entry of the context manager: raise the configured
failure exception (modelled as an error result) when the circuit is open,
otherwise succeed. -/
def CircuitBreaker.aenter (cb : CircuitBreaker ε) : M (Except ε Unit) :=
  M.bind cb.is_circuit_open (fun opn =>
    if opn then
      M.pure (Except.error cb.failure_exception)
    else
      M.pure (Except.ok ()))

/-- Translation of the exit of the context manager.  The argument is the
exception raised by the protected operation, none on success.  An ok
result means the exit raised nothing (so any original exception
propagates unchanged); an error result means the exit itself raised. -/
def CircuitBreaker.aexit (cb : CircuitBreaker ε) (exc : Option ε) :
    M (Except ε Unit) :=
  M.bind cb._increase_request_count (fun _ =>
    match exc with
    | none => M.pure (Except.ok ())
    | some e =>
      if cb.catchable e then
        M.bind cb._increase_failure_count (fun _ =>
          M.bind cb.get_total_failures (fun total_failures =>
            M.bind cb.get_total_requests (fun total_requests =>
              if cb.rule.should_open_circuit total_failures total_requests
              then
                M.bind cb.open_circuit (fun _ =>
                  M.bind _notify_max_failures_exceeded (fun _ =>
                    M.pure (Except.error cb.failure_exception)))
              else
                M.pure (Except.ok ()))))
      else
        M.pure (Except.ok ()))

/-- The exception carried by the outcome of the protected operation. -/
def excOf {ε β : Type} : Except ε β → Option ε
  | Except.error e => some e
  | Except.ok _ => none

/-- Translation of the decorator: the wrapped callable enters the scope,
runs the original callable on the forwarded argument, exits the scope
with the exception information, and yields either the exception raised on
entry or exit or the original outcome. -/
def CircuitBreaker.call {α β : Type} (cb : CircuitBreaker ε)
    (func : α → M (Except ε β)) (a : α) : M (Except ε β) :=
  M.bind cb.aenter (fun entry =>
    match entry with
    | Except.error e => M.pure (Except.error e)
    | Except.ok _ =>
      M.bind (func a) (fun r =>
        M.bind (cb.aexit (excOf r)) (fun x =>
          match x with
          | Except.error e2 => M.pure (Except.error e2)
          | Except.ok _ => M.pure r)))

/-! Basic lemmas about the store operations. -/

namespace Store

@[simp]
theorem lookup_setk_self (s : Store) (k : Key) (e : Entry) :
    lookup (setk s k e) k = some e := by
  induction s with
  | nil => simp [setk, lookup]
  | cons p rest ih =>
      obtain ⟨k2, e2⟩ := p
      by_cases h : k2 = k <;> simp [setk, lookup, h, ih]

theorem lookup_setk_ne (s : Store) {k k2 : Key} (e : Entry) (h : k ≠ k2) :
    lookup (setk s k e) k2 = lookup s k2 := by
  induction s with
  | nil => simp [setk, lookup, h]
  | cons p rest ih =>
      obtain ⟨k3, e3⟩ := p
      by_cases h3 : k3 = k
      · subst h3
        simp [setk, lookup, h]
      · simp [setk, lookup, h3]
        by_cases h4 : k3 = k2 <;> simp [h4, ih]

theorem lookup_del (s : Store) (k k2 : Key) :
    lookup (del s k) k2 = if k = k2 then none else lookup s k2 := by
  induction s with
  | nil => simp [del, lookup]
  | cons p rest ih =>
      obtain ⟨k3, e3⟩ := p
      by_cases h3 : k3 = k
      · subst h3
        by_cases h : k3 = k2
        · subst h
          simp [del, lookup, ih]
        · simp [del, lookup, h, ih]
      · by_cases h : k3 = k2
        · subst h
          simp [del, lookup, h3, ih]
          intro h2
          exact absurd h2.symm h3
        · simp [del, lookup, h3, h, ih]

@[simp]
theorem lookup_del_self (s : Store) (k : Key) :
    lookup (del s k) k = none := by
  simp [lookup_del]

theorem setk_eq_of_lookup (s : Store) {k : Key} {e : Entry}
    (h : lookup s k = some e) : setk s k e = s := by
  induction s with
  | nil => simp [lookup] at h
  | cons p rest ih =>
      obtain ⟨k2, e2⟩ := p
      by_cases h2 : k2 = k
      · subst h2
        simp [lookup] at h
        simp [setk, h]
      · simp [lookup, h2] at h
        simp [setk, h2, ih h]

theorem setk_eq_append_of_lookup (s : Store) {k : Key} (e : Entry)
    (h : lookup s k = none) : setk s k e = s ++ [(k, e)] := by
  induction s with
  | nil => simp [setk]
  | cons p rest ih =>
      obtain ⟨k2, e2⟩ := p
      by_cases h2 : k2 = k
      · subst h2
        simp [lookup] at h
      · simp [lookup, h2] at h
        simp [setk, h2, ih h]

theorem del_eq_of_lookup (s : Store) {k : Key}
    (h : lookup s k = none) : del s k = s := by
  induction s with
  | nil => simp [del]
  | cons p rest ih =>
      obtain ⟨k2, e2⟩ := p
      by_cases h2 : k2 = k
      · subst h2
        simp [lookup] at h
      · simp [lookup, h2] at h
        simp [del, h2, ih h]

theorem del_append (s t : Store) (k : Key) :
    del (s ++ t) k = del s k ++ del t k := by
  induction s with
  | nil => simp [del]
  | cons p rest ih =>
      obtain ⟨k2, e2⟩ := p
      by_cases h2 : k2 = k <;> simp [del, h2, ih]

theorem setk_setk (s : Store) (k : Key) (e e2 : Entry) :
    setk (setk s k e) k e2 = setk s k e2 := by
  induction s with
  | nil => simp [setk]
  | cons p rest ih =>
      obtain ⟨k3, e3⟩ := p
      by_cases h3 : k3 = k <;> simp [setk, h3, ih]

end Store

/-! Run lemmas: how a monadic computation evaluates on a given store. -/

@[simp]
theorem M.bind_run {α β : Type} (x : M α) (f : α → M β) (s : Store) :
    M.bind x f s =
      ((f (x s).1 (x s).2.1).1, (f (x s).1 (x s).2.1).2.1,
        (x s).2.2 ++ (f (x s).1 (x s).2.1).2.2) := rfl

@[simp]
theorem M.pure_run {α : Type} (a : α) (s : Store) :
    (M.pure a : M α) s = (a, s, []) := rfl

@[simp]
theorem M.ite_run {α : Type} (c : Prop) [Decidable c] (x y : M α)
    (s : Store) : (if c then x else y) s = if c then x s else y s := by
  split <;> rfl

@[simp]
theorem Cache.get_run (k : Key) (s : Store) :
    Cache.get k s =
      ((Store.lookup s k).map Entry.value, s, [Op.get k]) := rfl

@[simp]
theorem Cache.set_run (k : Key) (v : Int) (t : Timeout) (s : Store) :
    Cache.set k v t s = ((), Store.setk s k ⟨v, t⟩, [Op.set k v t]) := rfl

@[simp]
theorem Cache.delete_run (k : Key) (s : Store) :
    Cache.delete k s = ((), Store.del s k, [Op.delete k]) := rfl

theorem CircuitBreaker.get_total_requests_store (cb : CircuitBreaker ε)
    (s : Store) : (cb.get_total_requests s).2.1 = s := by
  by_cases h : keyTruthy cb.rule.request_cache_key <;>
    simp [CircuitBreaker.get_total_requests, h]

/-- Closed form of one run of _incr: the returned value, the resulting
store and the issued operations, by case on the current entry. -/
theorem CircuitBreaker._incr_run (cb : CircuitBreaker ε) (k : Key)
    (t : Timeout) (s : Store) :
    cb._incr k t s =
      (match Store.lookup s k with
       | some e =>
          if e.value + 1 = 1 then
            (e.value + 1, Store.setk s k ⟨e.value + 1, t⟩,
              [Op.incr k, Op.expire k t])
          else
            (e.value + 1, Store.setk s k ⟨e.value + 1, e.ttl⟩, [Op.incr k])
       | none =>
          (1, Store.setk s k ⟨1, t⟩, [Op.incr k, Op.expire k t])) := by
  rcases hl : Store.lookup s k with _ | e
  · simp [CircuitBreaker._incr, Cache.incr, Cache.expire, hl,
      Store.setk_setk]
  · by_cases hv : e.value + 1 = 1 <;>
      simp [CircuitBreaker._incr, Cache.incr, Cache.expire, hl, hv,
        Store.setk_setk]

/-- The increment operation always appears in the trace of one _incr. -/
theorem CircuitBreaker._incr_trace_mem (cb : CircuitBreaker ε) (k : Key)
    (t : Timeout) (s : Store) : Op.incr k ∈ (cb._incr k t s).2.2 := by
  rcases hl : Store.lookup s k with _ | e
  · simp [cb._incr_run, hl]
  · by_cases hv : e.value + 1 = 1 <;> simp [cb._incr_run, hl, hv]

/-- Closed form of one run of open_circuit. -/
theorem CircuitBreaker.open_circuit_run (cb : CircuitBreaker ε)
    (s : Store) :
    cb.open_circuit s =
      ((),
        (match cb.rule.request_cache_key with
         | some rk =>
            Store.del
              (Store.del
                (Store.setk s (some cb.circuit_cache_key)
                  ⟨1, cb.circuit_timeout⟩)
                (some cb.rule.failure_cache_key))
              (some rk)
         | none =>
            Store.del
              (Store.setk s (some cb.circuit_cache_key)
                ⟨1, cb.circuit_timeout⟩)
              (some cb.rule.failure_cache_key)),
        [Op.set (some cb.circuit_cache_key) 1 cb.circuit_timeout,
          Op.delete (some cb.rule.failure_cache_key)] ++
          (match cb.rule.request_cache_key with
           | some rk => [Op.delete (some rk)]
           | none => []) ++
          [Op.notifyOpenCircuit]) := by
  rcases h : cb.rule.request_cache_key with _ | rk <;>
    simp [CircuitBreaker.open_circuit, h, _notify_open_circuit]

/-- C9: incrementing a counter returns the previous value plus one (one
for a missing key), issues the TTL-setting expire exactly when the
returned value is 1, and the stored entry afterwards carries the new
value with failure_timeout as TTL in that case and the untouched old TTL
otherwise. -/
theorem incr_sets_ttl_iff_first (cb : CircuitBreaker ε) (k : Key)
    (s : Store) :
    (cb._incr k cb.failure_timeout s).1 =
      (match Store.lookup s k with
       | some e => e.value + 1
       | none => 1) ∧
    (cb._incr k cb.failure_timeout s).2.2 =
      (if (cb._incr k cb.failure_timeout s).1 = 1 then
        [Op.incr k, Op.expire k cb.failure_timeout]
       else [Op.incr k]) ∧
    Store.lookup ((cb._incr k cb.failure_timeout s).2.1) k =
      some ⟨(cb._incr k cb.failure_timeout s).1,
        if (cb._incr k cb.failure_timeout s).1 = 1 then cb.failure_timeout
        else
          (match Store.lookup s k with
           | some e => e.ttl
           | none => none)⟩ := by
  rcases hl : Store.lookup s k with _ | e
  · simp [cb._incr_run, hl]
  · by_cases hv : e.value + 1 = 1 <;> simp [cb._incr_run, hl, hv]

/-- C1: entering the guarded scope with the open flag present and truthy,
directly through the context manager or through the decorator-wrapped
callable, yields the configured failure exception, leaves the store
untouched, and issues nothing but the flag read; the equations hold for
every protected callable, so the protected operation is never invoked. -/
theorem enter_when_open_raises {α β : Type} (cb : CircuitBreaker ε)
    (func : α → M (Except ε β)) (a : α) (s : Store)
    (hopen : (cb.is_circuit_open s).1 = true) :
    cb.aenter s =
      (Except.error cb.failure_exception, s,
        [Op.get (some cb.circuit_cache_key)]) ∧
    cb.call func a s =
      (Except.error cb.failure_exception, s,
        [Op.get (some cb.circuit_cache_key)]) := by
  simp [CircuitBreaker.is_circuit_open] at hopen
  simp [CircuitBreaker.aenter, CircuitBreaker.call,
    CircuitBreaker.is_circuit_open, hopen]

/-- C8: failure accounting, run on any store.  When the circuit is open
at that moment or the policy disables failure counting, the run leaves
the store untouched and issues nothing beyond the flag read (no
increment, no log invocation, no store mutation).  Otherwise it performs
the atomic increment of the failure counter and ends with the log hook
applied to the freshly incremented failure total and the freshly read
request total. -/
theorem increase_failure_count_spec (cb : CircuitBreaker ε) (s : Store) :
    (((cb.is_circuit_open s).1 = true ∨
        cb.rule.should_increase_failure_count = false) →
      cb._increase_failure_count s =
        ((), s, [Op.get (some cb.circuit_cache_key)])) ∧
    ((cb.is_circuit_open s).1 = false →
      cb.rule.should_increase_failure_count = true →
      cb._increase_failure_count s =
        ((),
          (cb._incr (some cb.rule.failure_cache_key)
            cb.failure_timeout s).2.1,
          [Op.get (some cb.circuit_cache_key)] ++
            (cb._incr (some cb.rule.failure_cache_key)
              cb.failure_timeout s).2.2 ++
            (cb.get_total_requests
              ((cb._incr (some cb.rule.failure_cache_key)
                cb.failure_timeout s).2.1)).2.2 ++
            [Op.logIncreaseFailures
              (cb._incr (some cb.rule.failure_cache_key)
                cb.failure_timeout s).1
              (cb.get_total_requests
                ((cb._incr (some cb.rule.failure_cache_key)
                  cb.failure_timeout s).2.1)).1])) := by
  constructor
  · intro h
    have hb : truthyInt
        ((Store.lookup s (some cb.circuit_cache_key)).map Entry.value) =
          true ∨ cb.rule.should_increase_failure_count = false := by
      simpa [CircuitBreaker.is_circuit_open] using h
    rcases hb with hb | hb <;>
      simp [CircuitBreaker._increase_failure_count,
        CircuitBreaker.is_circuit_open, hb]
  · intro h1 h2
    have hb : truthyInt
        ((Store.lookup s (some cb.circuit_cache_key)).map Entry.value) =
          false := by
      simpa [CircuitBreaker.is_circuit_open] using h1
    simp [CircuitBreaker._increase_failure_count,
      CircuitBreaker.is_circuit_open, hb, h2, log_increase_failures,
      CircuitBreaker.get_total_requests_store]

/-- C4: one run of open_circuit issues, in order, the flag write with
circuit_timeout, the deletion of the failure counter (plus the deletion
of the request counter when the rule carries a request key), and the
opened notification hook; afterwards the flag entry holds 1 with
circuit_timeout and both counters are absent, so they read as 0. -/
theorem open_circuit_spec (cb : CircuitBreaker ε) (s : Store)
    (hfk : cb.rule.failure_cache_key ≠ cb.circuit_cache_key)
    (hrk : ∀ rk, cb.rule.request_cache_key = some rk →
      rk ≠ cb.circuit_cache_key) :
    (cb.open_circuit s).2.2 =
      [Op.set (some cb.circuit_cache_key) 1 cb.circuit_timeout,
        Op.delete (some cb.rule.failure_cache_key)] ++
        (match cb.rule.request_cache_key with
         | some rk => [Op.delete (some rk)]
         | none => []) ++ [Op.notifyOpenCircuit] ∧
    Store.lookup ((cb.open_circuit s).2.1) (some cb.circuit_cache_key) =
      some ⟨1, cb.circuit_timeout⟩ ∧
    Store.lookup ((cb.open_circuit s).2.1)
      (some cb.rule.failure_cache_key) = none ∧
    (cb.get_total_failures ((cb.open_circuit s).2.1)).1 = 0 ∧
    (∀ rk, cb.rule.request_cache_key = some rk →
      Store.lookup ((cb.open_circuit s).2.1) (some rk) = none) ∧
    (cb.get_total_requests ((cb.open_circuit s).2.1)).1 = 0 := by
  have hfk2 : (some cb.rule.failure_cache_key : Key) ≠
      some cb.circuit_cache_key := by simp [hfk]
  rcases hreq : cb.rule.request_cache_key with _ | rk
  · refine ⟨by simp [cb.open_circuit_run, hreq], ?_, ?_, ?_, ?_, ?_⟩
    · simp [cb.open_circuit_run, hreq, Store.lookup_del, hfk2]
    · simp [cb.open_circuit_run, hreq]
    · simp [CircuitBreaker.get_total_failures, cb.open_circuit_run, hreq]
    · intro rk h
      simp [hreq] at h
    · simp [CircuitBreaker.get_total_requests, hreq, keyTruthy]
  · have hr : rk ≠ cb.circuit_cache_key := hrk rk hreq
    have hr2 : (some rk : Key) ≠ some cb.circuit_cache_key := by simp [hr]
    refine ⟨by simp [cb.open_circuit_run, hreq], ?_, ?_, ?_, ?_, ?_⟩
    · simp [cb.open_circuit_run, hreq, Store.lookup_del, hr2, hfk2]
    · by_cases h : (some rk : Key) = some cb.rule.failure_cache_key
      · simp [cb.open_circuit_run, hreq, Store.lookup_del, h]
      · have h2 : (some rk : Key) ≠ some cb.rule.failure_cache_key := h
        simp [cb.open_circuit_run, hreq, Store.lookup_del, h2]
    · by_cases h : (some rk : Key) = some cb.rule.failure_cache_key
      · simp [CircuitBreaker.get_total_failures, cb.open_circuit_run,
          hreq, Store.lookup_del, h]
      · simp [CircuitBreaker.get_total_failures, cb.open_circuit_run,
          hreq, Store.lookup_del, h]
    · intro rk2 h
      have h2 : rk2 = rk := (Option.some.inj h).symm
      subst h2
      simp [cb.open_circuit_run, hreq]
    · by_cases hrke : keyTruthy (some rk) = true
      · simp [CircuitBreaker.get_total_requests, hreq, hrke,
          cb.open_circuit_run, Store.lookup_del]
      · simp [CircuitBreaker.get_total_requests, hreq, hrke]

/-- Setting a key and deleting another is idempotent at the store level
(the one-counter shape of open_circuit). -/
theorem Store.del_setk_del_idem (s : Store) (K F : Key) (e : Entry) :
    Store.del (Store.setk (Store.del (Store.setk s K e) F) K e) F =
      Store.del (Store.setk s K e) F := by
  by_cases hFK : F = K
  · subst hFK
    rw [Store.setk_eq_append_of_lookup _ e (Store.lookup_del_self _ _),
      Store.del_append,
      Store.del_eq_of_lookup _ (Store.lookup_del_self _ _)]
    simp [Store.del]
  · have h1 : Store.lookup (Store.del (Store.setk s K e) F) K = some e := by
      rw [Store.lookup_del]
      simp [hFK]
    rw [Store.setk_eq_of_lookup _ h1,
      Store.del_eq_of_lookup _ (Store.lookup_del_self _ _)]

/-- Setting a key and deleting two others is idempotent at the store
level (the two-counter shape of open_circuit). -/
theorem Store.del_del_setk_idem (s : Store) (K F R : Key) (e : Entry) :
    Store.del
      (Store.del
        (Store.setk (Store.del (Store.del (Store.setk s K e) F) R) K e) F)
      R = Store.del (Store.del (Store.setk s K e) F) R := by
  set s1 := Store.del (Store.del (Store.setk s K e) F) R with hs1
  have hF : Store.lookup s1 F = none := by
    rw [hs1, Store.lookup_del]
    by_cases h : R = F
    · simp [h]
    · simp [h, Store.lookup_del_self]
  have hR : Store.lookup s1 R = none := Store.lookup_del_self _ _
  by_cases hFK : F = K
  · have hK : Store.lookup s1 K = none := by
      rw [hs1, Store.lookup_del]
      by_cases h : R = K
      · simp [h]
      · simp [h, Store.lookup_del, hFK]
    rw [Store.setk_eq_append_of_lookup _ e hK, Store.del_append,
      Store.del_append, Store.del_eq_of_lookup _ hF,
      Store.del_eq_of_lookup _ hR]
    simp [Store.del, hFK]
  · by_cases hRK : R = K
    · have hK : Store.lookup s1 K = none := by
        rw [hs1, Store.lookup_del]
        simp [hRK]
      rw [Store.setk_eq_append_of_lookup _ e hK, Store.del_append,
        Store.del_append, Store.del_eq_of_lookup _ hF,
        Store.del_eq_of_lookup _ hR]
      simp [Store.del, Ne.symm hFK, hRK]
    · have hK : Store.lookup s1 K = some e := by
        rw [hs1, Store.lookup_del]
        simp [hRK, Store.lookup_del, hFK]
      rw [Store.setk_eq_of_lookup _ hK, Store.del_eq_of_lookup _ hF,
        Store.del_eq_of_lookup _ hR]

/-- Closed form of one run of get_total_failures. -/
theorem CircuitBreaker.get_total_failures_run (cb : CircuitBreaker ε)
    (s : Store) :
    cb.get_total_failures s =
      (((Store.lookup s (some cb.rule.failure_cache_key)).map
          Entry.value).getD 0,
        s, [Op.get (some cb.rule.failure_cache_key)]) := rfl

/-- After open_circuit the flag entry holds 1 with circuit_timeout,
provided the counter keys differ from the flag key. -/
theorem CircuitBreaker.open_circuit_flag (cb : CircuitBreaker ε)
    (s : Store)
    (hfk : cb.rule.failure_cache_key ≠ cb.circuit_cache_key)
    (hrk : ∀ rk, cb.rule.request_cache_key = some rk →
      rk ≠ cb.circuit_cache_key) :
    Store.lookup ((cb.open_circuit s).2.1) (some cb.circuit_cache_key) =
      some ⟨1, cb.circuit_timeout⟩ := by
  have hfk2 : (some cb.rule.failure_cache_key : Key) ≠
      some cb.circuit_cache_key := by simp [hfk]
  rcases hreq : cb.rule.request_cache_key with _ | rk
  · simp [cb.open_circuit_run, hreq, Store.lookup_del, hfk2]
  · have hr2 : (some rk : Key) ≠ some cb.circuit_cache_key := by
      simp [hrk rk hreq]
    simp [cb.open_circuit_run, hreq, Store.lookup_del, hr2, hfk2]

/-- C5: open_circuit is idempotent on the store: running it a second
time from the state one run produced yields that same state, for every
starting store and breaker configuration (the model is total, so the
repeated run also cannot fail). -/
theorem open_circuit_idempotent (cb : CircuitBreaker ε) (s : Store) :
    (cb.open_circuit ((cb.open_circuit s).2.1)).2.1 =
      (cb.open_circuit s).2.1 := by
  rcases h : cb.rule.request_cache_key with _ | rk
  · simpa [cb.open_circuit_run, h] using
      Store.del_setk_del_idem s (some cb.circuit_cache_key)
        (some cb.rule.failure_cache_key) ⟨1, cb.circuit_timeout⟩
  · simpa [cb.open_circuit_run, h] using
      Store.del_del_setk_idem s (some cb.circuit_cache_key)
        (some cb.rule.failure_cache_key) (some rk) ⟨1, cb.circuit_timeout⟩

/-- C2: exiting the guarded scope after a catchable exception.  With the
freshly read totals taken after the request and failure accounting, the
exit raises the configured failure exception and sets the open flag
exactly when the policy decides to open on those totals; when the policy
declines, the exit raises nothing (so the original exception propagates
unchanged) and performs no further store mutation, in particular the
circuit is not opened. -/
theorem aexit_catchable_spec (cb : CircuitBreaker ε) (s : Store) (e : ε)
    (hc : cb.catchable e = true)
    (hfk : cb.rule.failure_cache_key ≠ cb.circuit_cache_key)
    (hrk : ∀ rk, cb.rule.request_cache_key = some rk →
      rk ≠ cb.circuit_cache_key) :
    ∀ s2 tf tr,
      s2 = (cb._increase_failure_count
              ((cb._increase_request_count s).2.1)).2.1 →
      tf = (cb.get_total_failures s2).1 →
      tr = (cb.get_total_requests s2).1 →
      (cb.rule.should_open_circuit tf tr = true →
        (cb.aexit (some e) s).1 = Except.error cb.failure_exception ∧
        Store.lookup ((cb.aexit (some e) s).2.1)
          (some cb.circuit_cache_key) = some ⟨1, cb.circuit_timeout⟩) ∧
      (cb.rule.should_open_circuit tf tr = false →
        (cb.aexit (some e) s).1 = Except.ok () ∧
        (cb.aexit (some e) s).2.1 = s2) := by
  intro s2 tf tr hs2 htf htr
  subst hs2
  subst htf
  subst htr
  constructor
  · intro ho
    simp only [CircuitBreaker.get_total_failures_run] at ho
    refine ⟨?_, ?_⟩
    · simp [CircuitBreaker.aexit, hc, CircuitBreaker.get_total_failures_run,
        CircuitBreaker.get_total_requests_store,
        _notify_max_failures_exceeded, ho]
    · simp [CircuitBreaker.aexit, hc, CircuitBreaker.get_total_failures_run,
        CircuitBreaker.get_total_requests_store,
        _notify_max_failures_exceeded, ho]
      exact cb.open_circuit_flag _ hfk hrk
  · intro ho
    simp only [CircuitBreaker.get_total_failures_run] at ho
    refine ⟨?_, ?_⟩ <;>
      simp [CircuitBreaker.aexit, hc, CircuitBreaker.get_total_failures_run,
        CircuitBreaker.get_total_requests_store,
        _notify_max_failures_exceeded, ho]

/-- When the policy never decides to open, the exit of the guarded scope
never raises. -/
theorem CircuitBreaker.aexit_ok_of_never_open (cb : CircuitBreaker ε)
    (hnever : ∀ f r, cb.rule.should_open_circuit f r = false)
    (exc : Option ε) (s : Store) : (cb.aexit exc s).1 = Except.ok () := by
  rcases exc with _ | e
  · simp [CircuitBreaker.aexit]
  · by_cases hc : cb.catchable e = true
    · simp [CircuitBreaker.aexit, hc, hnever]
    · simp [CircuitBreaker.aexit, hc]

/-- C3: with the circuit closed on entry and a policy that never decides
to open, the decorator-wrapped callable forwards the argument to the
original callable and yields exactly the outcome of that call: the
return value unchanged on success, and the raised exception unchanged on
failure. -/
theorem call_passthrough {α β : Type} (cb : CircuitBreaker ε)
    (func : α → M (Except ε β)) (a : α) (s : Store)
    (hclosed : (cb.is_circuit_open s).1 = false)
    (hnever : ∀ f r, cb.rule.should_open_circuit f r = false) :
    (cb.call func a s).1 = (func a s).1 := by
  have hb : truthyInt
      ((Store.lookup s (some cb.circuit_cache_key)).map Entry.value) =
        false := by
    simpa [CircuitBreaker.is_circuit_open] using hclosed
  have hx := cb.aexit_ok_of_never_open hnever (excOf (func a s).1)
    ((func a s).2.1)
  simp [CircuitBreaker.call, CircuitBreaker.aenter,
    CircuitBreaker.is_circuit_open, hb, hx]

/-- The request increment appears in the trace of request accounting
whenever the circuit is not open and the policy enables it. -/
theorem CircuitBreaker.increase_request_count_incrs
    (cb : CircuitBreaker ε) (s : Store)
    (hclosed : (cb.is_circuit_open s).1 = false)
    (hreq : cb.rule.should_increase_request_count = true) :
    Op.incr cb.rule.request_cache_key ∈
      (cb._increase_request_count s).2.2 := by
  have hb : truthyInt
      ((Store.lookup s (some cb.circuit_cache_key)).map Entry.value) =
        false := by
    simpa [CircuitBreaker.is_circuit_open] using hclosed
  simp [CircuitBreaker._increase_request_count,
    CircuitBreaker.is_circuit_open, hb, hreq, List.mem_append,
    cb._incr_trace_mem]

/-- C6 (amended): on exit of the guarded scope, the request counter
increment is issued whenever the circuit is not open at that moment and
the policy enables request counting; this holds whether the protected
operation succeeded or raised. -/
theorem aexit_request_accounting (cb : CircuitBreaker ε) (exc : Option ε)
    (s : Store)
    (hclosed : (cb.is_circuit_open s).1 = false)
    (hreq : cb.rule.should_increase_request_count = true) :
    Op.incr cb.rule.request_cache_key ∈ (cb.aexit exc s).2.2 := by
  have h1 := cb.increase_request_count_incrs s hclosed hreq
  simp [CircuitBreaker.aexit, List.mem_append]
  exact Or.inl h1

/-- C7 (amended): when request accounting runs and the policy also
enables failure counting, the run issues exactly the flag read, the
request counter increment operations and then one set-if-absent of the
failure counter at 0 with failure_timeout; afterwards the failure entry
is the one already present after the increment, with value and TTL
untouched, or the fresh entry 0 with failure_timeout when it was
absent. -/
theorem increase_request_count_syncs_failure_window
    (cb : CircuitBreaker ε) (s : Store)
    (hclosed : (cb.is_circuit_open s).1 = false)
    (hreq : cb.rule.should_increase_request_count = true)
    (hfail : cb.rule.should_increase_failure_count = true) :
    ∀ s1, s1 = (cb._incr cb.rule.request_cache_key
                  cb.failure_timeout s).2.1 →
      (cb._increase_request_count s).2.2 =
        [Op.get (some cb.circuit_cache_key)] ++
          (cb._incr cb.rule.request_cache_key cb.failure_timeout s).2.2 ++
          [Op.add (some cb.rule.failure_cache_key) 0 cb.failure_timeout] ∧
      Store.lookup ((cb._increase_request_count s).2.1)
        (some cb.rule.failure_cache_key) =
        (match Store.lookup s1 (some cb.rule.failure_cache_key) with
         | some e => some e
         | none => some ⟨0, cb.failure_timeout⟩) := by
  intro s1 hs1
  subst hs1
  have hb : truthyInt
      ((Store.lookup s (some cb.circuit_cache_key)).map Entry.value) =
        false := by
    simpa [CircuitBreaker.is_circuit_open] using hclosed
  rcases hl : Store.lookup
      ((cb._incr cb.rule.request_cache_key cb.failure_timeout s).2.1)
      (some cb.rule.failure_cache_key) with _ | e2 <;>
    simp [CircuitBreaker._increase_request_count,
      CircuitBreaker.is_circuit_open, hb, hreq, hfail, Cache.add, hl]

/-- C10: request accounting is not gated on the presence of the request
key: with a policy that enables request counting but carries no request
key, the increment is still issued with the None key; the read path
get_total_requests, by contrast, returns 0 with no store operation at
all when the key is absent. -/
theorem request_count_not_gated_on_key (cb : CircuitBreaker ε) (s : Store)
    (hkey : cb.rule.request_cache_key = none)
    (hreq : cb.rule.should_increase_request_count = true)
    (hclosed : (cb.is_circuit_open s).1 = false) :
    Op.incr none ∈ (cb._increase_request_count s).2.2 ∧
    cb.get_total_requests s = (0, s, []) := by
  constructor
  · have h1 := cb.increase_request_count_incrs s hclosed hreq
    rwa [hkey] at h1
  · simp [CircuitBreaker.get_total_requests, hkey, keyTruthy]

/-! Concrete configurations for counterexamples and witnesses.  The
exception type is Bool: true is the configured failure exception, false
stands for the exception raised by the protected operation. -/

/-- An absolute-count rule with both counters: open at 3 failures. -/
def demoRule : Rule where
  failure_cache_key := "rule:failures"
  request_cache_key := some "rule:requests"
  should_open_circuit := fun f _ => 3 ≤ f
  should_increase_failure_count := true
  should_increase_request_count := true

/-- A breaker over demoRule. -/
def demoBreaker : CircuitBreaker Bool where
  rule := demoRule
  circuit_cache_key := "circuit:open"
  circuit_timeout := some 30
  failure_timeout := some 60
  failure_exception := true
  catchable := fun _ => true

/-- A store in which the open flag is present and truthy. -/
def demoOpenStore : Store := [(some "circuit:open", ⟨1, some 30⟩)]

/-- A store holding two failures in the current window. -/
def demoTwoFailStore : Store := [(some "rule:failures", ⟨2, some 60⟩)]

/-- A rule that never decides to open. -/
def demoNeverRule : Rule where
  failure_cache_key := "rule:failures"
  request_cache_key := some "rule:requests"
  should_open_circuit := fun _ _ => false
  should_increase_failure_count := true
  should_increase_request_count := true

/-- A breaker over demoNeverRule. -/
def demoNeverBreaker : CircuitBreaker Bool where
  rule := demoNeverRule
  circuit_cache_key := "circuit:open"
  circuit_timeout := some 30
  failure_timeout := some 60
  failure_exception := true
  catchable := fun _ => true

/-- A rule that counts requests but disables failure counting. -/
def demoNoFailRule : Rule where
  failure_cache_key := "rule:failures"
  request_cache_key := some "rule:requests"
  should_open_circuit := fun _ _ => false
  should_increase_failure_count := false
  should_increase_request_count := true

/-- A breaker over demoNoFailRule. -/
def demoNoFailBreaker : CircuitBreaker Bool where
  rule := demoNoFailRule
  circuit_cache_key := "circuit:open"
  circuit_timeout := some 30
  failure_timeout := some 60
  failure_exception := true
  catchable := fun _ => true

/-- A rule that enables request counting yet carries no request key. -/
def demoNoKeyRule : Rule where
  failure_cache_key := "rule:failures"
  request_cache_key := none
  should_open_circuit := fun _ _ => false
  should_increase_failure_count := true
  should_increase_request_count := true

/-- A breaker over demoNoKeyRule. -/
def demoNoKeyBreaker : CircuitBreaker Bool where
  rule := demoNoKeyRule
  circuit_cache_key := "circuit:open"
  circuit_timeout := some 30
  failure_timeout := some 60
  failure_exception := true
  catchable := fun _ => true

/-- C6 counterexample: an exit taken while the open flag is present, with
a policy that enables request counting, leaves the store untouched and
issues no request increment, so the request counter is not increased on
this exit even though the policy enables it. -/
theorem aexit_request_count_skipped_when_open :
    demoBreaker.rule.should_increase_request_count = true ∧
    (demoBreaker.aexit none demoOpenStore).2.1 = demoOpenStore ∧
    Op.incr demoBreaker.rule.request_cache_key ∉
      (demoBreaker.aexit none demoOpenStore).2.2 := by decide

/-- C7 counterexample: with failure counting disabled, request accounting
runs (the request increment is issued) but no set-if-absent of the
failure counter is issued and no failure counter is created, so the
claim that every run of request accounting creates the failure counter
fails at this input. -/
theorem increase_request_count_no_add_when_failures_disabled :
    demoNoFailBreaker.rule.should_increase_request_count = true ∧
    Op.incr (some "rule:requests") ∈
      (demoNoFailBreaker._increase_request_count []).2.2 ∧
    Op.add (some "rule:failures") 0 demoNoFailBreaker.failure_timeout ∉
      (demoNoFailBreaker._increase_request_count []).2.2 ∧
    Store.lookup ((demoNoFailBreaker._increase_request_count []).2.1)
      (some "rule:failures") = none := by decide

/-- C1 witness: the entry theorem applied at a concrete open store. -/
theorem enter_when_open_raises_witness :
    (demoBreaker.is_circuit_open demoOpenStore).1 = true ∧
    demoBreaker.call (fun n : Nat => M.pure (Except.ok (n + 1))) 5
        demoOpenStore =
      (Except.error demoBreaker.failure_exception, demoOpenStore,
        [Op.get (some demoBreaker.circuit_cache_key)]) :=
  ⟨by decide,
    (enter_when_open_raises demoBreaker
      (fun n : Nat => M.pure (Except.ok (n + 1))) 5 demoOpenStore
      (by decide)).2⟩

/-- C2 witness: the exit theorem applied at a store holding two failures,
where the third catchable failure makes the policy open the circuit. -/
theorem aexit_catchable_spec_witness :
    demoBreaker.catchable false = true ∧
    (demoBreaker.aexit (some false) demoTwoFailStore).1 =
      Except.error demoBreaker.failure_exception ∧
    Store.lookup ((demoBreaker.aexit (some false) demoTwoFailStore).2.1)
      (some demoBreaker.circuit_cache_key) =
      some ⟨1, demoBreaker.circuit_timeout⟩ := by
  have h := (aexit_catchable_spec demoBreaker demoTwoFailStore false
    (by decide) (by decide)
    (fun rk h => by
      have h2 : rk = "rule:requests" :=
        (Option.some.inj
          (show (some "rule:requests" : Option String) = some rk from h)).symm
      subst h2
      decide)
    _ _ _ rfl rfl rfl).1 (by decide)
  exact ⟨by decide, h.1, h.2⟩

/-- C3 witness: the passthrough theorem applied to a concrete callable on
the empty store under the never-open rule. -/
theorem call_passthrough_witness :
    (demoNeverBreaker.is_circuit_open []).1 = false ∧
    (∀ f r, demoNeverBreaker.rule.should_open_circuit f r = false) ∧
    (demoNeverBreaker.call
        (fun n : Nat => M.pure (Except.ok (n + 1))) 5 []).1 =
      ((M.pure (Except.ok (5 + 1)) : M (Except Bool Nat)) []).1 :=
  ⟨by decide, fun _ _ => rfl,
    call_passthrough demoNeverBreaker
      (fun n : Nat => M.pure (Except.ok (n + 1))) 5 [] (by decide)
      (fun _ _ => rfl)⟩

/-- C4 witness: the open_circuit theorem applied at a concrete store. -/
theorem open_circuit_spec_witness :
    demoBreaker.rule.failure_cache_key ≠ demoBreaker.circuit_cache_key ∧
    (demoBreaker.open_circuit demoTwoFailStore).2.2 =
      [Op.set (some "circuit:open") 1 (some 30),
        Op.delete (some "rule:failures"),
        Op.delete (some "rule:requests"), Op.notifyOpenCircuit] ∧
    Store.lookup ((demoBreaker.open_circuit demoTwoFailStore).2.1)
      (some "circuit:open") = some ⟨1, some 30⟩ ∧
    (demoBreaker.get_total_failures
      ((demoBreaker.open_circuit demoTwoFailStore).2.1)).1 = 0 ∧
    (demoBreaker.get_total_requests
      ((demoBreaker.open_circuit demoTwoFailStore).2.1)).1 = 0 := by
  have h := open_circuit_spec demoBreaker demoTwoFailStore (by decide)
    (fun rk h => by
      have h2 : rk = "rule:requests" :=
        (Option.some.inj
          (show (some "rule:requests" : Option String) = some rk from h)).symm
      subst h2
      decide)
  exact ⟨by decide, h.1, h.2.1, h.2.2.2.1, h.2.2.2.2.2⟩

/-- C6 (amended) witness: the request increment is issued on a closed
exit. -/
theorem aexit_request_accounting_witness :
    (demoBreaker.is_circuit_open []).1 = false ∧
    demoBreaker.rule.should_increase_request_count = true ∧
    Op.incr demoBreaker.rule.request_cache_key ∈
      (demoBreaker.aexit none []).2.2 :=
  ⟨by decide, by decide,
    aexit_request_accounting demoBreaker none [] (by decide) (by decide)⟩

/-- C7 (amended) witness: from the empty store, request accounting
increments the request counter, sets its window, and creates the failure
counter at 0 with the same window. -/
theorem increase_request_count_syncs_failure_window_witness :
    (demoBreaker.is_circuit_open []).1 = false ∧
    (demoBreaker._increase_request_count []).2.2 =
      [Op.get (some "circuit:open"), Op.incr (some "rule:requests"),
        Op.expire (some "rule:requests") (some 60),
        Op.add (some "rule:failures") 0 (some 60)] ∧
    Store.lookup ((demoBreaker._increase_request_count []).2.1)
      (some "rule:failures") = some ⟨0, some 60⟩ := by
  have h := increase_request_count_syncs_failure_window demoBreaker []
    (by decide) (by decide) (by decide) _ rfl
  exact ⟨by decide, h.1, h.2⟩

/-- C8 witness: both branches of the failure-accounting theorem at
concrete stores (an open store and the empty closed store). -/
theorem increase_failure_count_spec_witness :
    demoBreaker._increase_failure_count demoOpenStore =
      ((), demoOpenStore, [Op.get (some "circuit:open")]) ∧
    demoBreaker._increase_failure_count [] =
      ((), (demoBreaker._incr (some "rule:failures") (some 60) []).2.1,
        [Op.get (some "circuit:open")] ++
          (demoBreaker._incr (some "rule:failures") (some 60) []).2.2 ++
          (demoBreaker.get_total_requests
            ((demoBreaker._incr (some "rule:failures")
              (some 60) []).2.1)).2.2 ++
          [Op.logIncreaseFailures
            (demoBreaker._incr (some "rule:failures") (some 60) []).1
            (demoBreaker.get_total_requests
              ((demoBreaker._incr (some "rule:failures")
                (some 60) []).2.1)).1]) :=
  ⟨(increase_failure_count_spec demoBreaker demoOpenStore).1
      (Or.inl (by decide)),
    (increase_failure_count_spec demoBreaker []).2 (by decide) (by decide)⟩

/-- C10 witness: the gating theorem at the breaker whose rule counts
requests without a request key. -/
theorem request_count_not_gated_on_key_witness :
    demoNoKeyBreaker.rule.request_cache_key = none ∧
    demoNoKeyBreaker.rule.should_increase_request_count = true ∧
    (Op.incr none ∈ (demoNoKeyBreaker._increase_request_count []).2.2 ∧
      demoNoKeyBreaker.get_total_requests [] = (0, [], [])) :=
  ⟨rfl, rfl,
    request_count_not_gated_on_key demoNoKeyBreaker [] rfl rfl (by decide)⟩

end Lasier
